import Mathlib

/-!
Shallow embedding of the todo-web-app frontend logic:
the task filter/sort pipeline (`applyFiltersAndSorting` from
`src/frontend/src/app/tasks/page.tsx`), the activity-feed merge
(`handleTaskActivity` from `RecentActivity.tsx`), the relative-time
formatter (`formatTimeAgo` from `timeUtils`), the task API facade
(`tasksApi`), and the new-task form submit handler (`handleSubmit`
from `tasks/new/page.tsx`).
-/

namespace TodoApp

/-- A JavaScript `Date` value, viewed in local time: `day` is the local
calendar-day index (days since an arbitrary epoch midnight) and `ms` the
milliseconds elapsed since that local midnight.  `getTime` recovers the
absolute millisecond timestamp, so `Date` comparison (which JS performs on
`getTime`) is comparison of `day * 86400000 + ms`. -/
structure JSDate where
  day : Int
  ms : Nat
deriving DecidableEq

/-- `d.getTime()`: the millisecond timestamp. -/
def JSDate.getTime (d : JSDate) : Int := d.day * 86400000 + d.ms

/-- `d.setHours(0, 0, 0, 0)`: truncate a date to local midnight. -/
def JSDate.atMidnight (d : JSDate) : JSDate := ⟨d.day, 0⟩

inductive Priority where
  | low
  | medium
  | high
deriving DecidableEq

inductive Recurring where
  | none
  | daily
  | weekly
  | monthly
deriving DecidableEq

inductive Category where
  | work
  | home
  | other
deriving DecidableEq

/-- The `Task` record of `types/task`. -/
structure Task where
  id : Int
  title : String
  description : Option String
  completed : Bool
  priority : Priority
  due_date : Option JSDate
  recurring : Recurring
  category : Category
  created_at : JSDate
  user_id : Int
deriving DecidableEq

/-- The status filter of the tasks page. -/
inductive StatusFilter where
  | all
  | active
  | completed
  | overdue
  | upcoming
deriving DecidableEq

/-- The sort key of the tasks page. -/
inductive SortKey where
  | created_at
  | due_date
  | priority
  | title
deriving DecidableEq

/-- The sort direction of the tasks page. -/
inductive SortOrder where
  | asc
  | desc
deriving DecidableEq

/-- `getToday` from `tasks/page.tsx`: the current date truncated to local
midnight.  The wall clock read by `new Date()` is passed in explicitly as
`now`. -/
def getToday (now : JSDate) : JSDate := now.atMidnight

/-- JS `s.includes(pat)`: substring containment. -/
def jsIncludes (s pat : String) : Bool := decide (pat.data <:+: s.data)

/-- Step 1 of `applyFiltersAndSorting`: the search predicate applied when
the search term is non-empty.  `term` is the already lower-cased search
term. -/
def searchPred (term : String) (task : Task) : Bool :=
  jsIncludes task.title.toLower term ||
    (match task.description with
     | some d => jsIncludes d.toLower term
     | none => false)

/-- Step 2 of `applyFiltersAndSorting`: the status predicate.  `today` is
the value of `getToday ()`; a present due date is truncated to midnight
before comparison, and a missing due date makes the `overdue` and
`upcoming` conjunctions falsy. -/
def statusPred (filter : StatusFilter) (today : JSDate) (task : Task) : Bool :=
  let taskDate : Option JSDate := task.due_date.map JSDate.atMidnight
  match filter with
  | .active => !task.completed
  | .completed => task.completed
  | .overdue =>
      !task.completed &&
        (match taskDate with
         | some d => decide (d.getTime < today.getTime)
         | none => false)
  | .upcoming =>
      !task.completed &&
        (match taskDate with
         | some d => decide (today.getTime ≤ d.getTime)
         | none => false)
  | .all => true

/-- The priority rank table `pOrder` of the sort comparator. -/
def pOrder : Priority → Int
  | .high => 3
  | .medium => 2
  | .low => 1

/-- The sign of `a.localeCompare(b)`, modelled by the lexicographic string
order. -/
def strCmp (a b : String) : Int :=
  if a < b then -1 else if b < a then 1 else 0

/-- The `comparison` value computed by the sort comparator of
`applyFiltersAndSorting` for each sort key, before the direction flag is
applied. -/
def cmpTask : SortKey → Task → Task → Int
  | .title, a, b => strCmp a.title b.title
  | .due_date, a, b =>
      match a.due_date, b.due_date with
      | none, none => 0
      | none, some _ => 1
      | some _, none => -1
      | some da, some db => da.getTime - db.getTime
  | .priority, a, b => pOrder b.priority - pOrder a.priority
  | .created_at, a, b => b.created_at.getTime - a.created_at.getTime

/-- The full comparator passed to `result.sort`: the direction flag keeps
the comparison for `asc` and negates it for `desc`. -/
def comparator (sortBy : SortKey) (sortOrder : SortOrder) (a b : Task) : Int :=
  match sortOrder with
  | .asc => cmpTask sortBy a b
  | .desc => -(cmpTask sortBy a b)

/-- The "goes no later than" relation induced by the comparator; a stable
sort by the JS comparator is a stable sort by this relation. -/
def taskLe (sortBy : SortKey) (sortOrder : SortOrder) (a b : Task) : Prop :=
  comparator sortBy sortOrder a b ≤ 0

instance (sb : SortKey) (so : SortOrder) : DecidableRel (taskLe sb so) :=
  fun _ _ => inferInstanceAs (Decidable (_ ≤ 0))

/-- `applyFiltersAndSorting` from `tasks/page.tsx`: copy the collection,
apply the search filter when the search term is non-empty, apply the
status filter, and sort with the direction-adjusted comparator.
`Array.prototype.sort` is stable (ECMAScript 2019), so it is modelled by
a stable sort by `taskLe`. -/
def applyFiltersAndSorting (searchTerm : String) (filter : StatusFilter)
    (sortBy : SortKey) (sortOrder : SortOrder) (now : JSDate)
    (tasksToFilter : List Task) : List Task :=
  let today := getToday now
  let result := tasksToFilter
  let result :=
    if searchTerm ≠ "" then
      let term := searchTerm.toLower
      result.filter (searchPred term)
    else result
  let result := result.filter (statusPred filter today)
  result.insertionSort (taskLe sortBy sortOrder)

/-- `applyFiltersAndSorting` with the array state made explicit: the body
first takes a shallow copy `[...tasksToFilter]` of the source array, the
filters build fresh arrays, and the in-place `result.sort` acts on the
copy.  The returned pair is (display list handed to `setFilteredTasks`,
the source array after the call). -/
def applyFiltersAndSortingRun (searchTerm : String) (filter : StatusFilter)
    (sortBy : SortKey) (sortOrder : SortOrder) (now : JSDate)
    (tasksToFilter : List Task) : List Task × List Task :=
  let today := getToday now
  let result := tasksToFilter.map id
  let result :=
    if searchTerm ≠ "" then
      let term := searchTerm.toLower
      result.filter (searchPred term)
    else result
  let result := result.filter (statusPred filter today)
  (result.insertionSort (taskLe sortBy sortOrder), tasksToFilter)

/-- The activity record shape used by `RecentActivity.tsx` (backend field
names, as produced by the conversion in `handleTaskActivity`). -/
structure ActivityItem where
  id : String
  action : String
  task_title : String
  created_at : Option JSDate
deriving DecidableEq

/-- The state update of `handleTaskActivity` in `RecentActivity.tsx`:
filter out entries with the incoming id, prepend the converted activity,
and truncate to 10. -/
def handleTaskActivity (convertedActivity : ActivityItem)
    (prevActivities : List ActivityItem) : List ActivityItem :=
  let filteredActivities :=
    prevActivities.filter (fun activity => activity.id != convertedActivity.id)
  (convertedActivity :: filteredActivities).take 10

/-- The state set by `fetchActivities` in `RecentActivity.tsx`:
`response.data?.slice(0, 10) || []`. -/
def fetchActivities (serverData : Option (List ActivityItem)) : List ActivityItem :=
  match serverData with
  | some l => l.take 10
  | none => []

/-- The locale-dependent rendering functions used by the later branches of
`formatTimeAgo` (`toLocaleTimeString` / `toLocaleDateString`), abstracted
as data. -/
structure Locale where
  timeHM : JSDate → String
  weekdayTime : JSDate → String
  monthDayYear : JSDate → String

/-- `formatTimeAgo` from `timeUtils`.  The optional input is the parsed
date (`new Date(dateString)`); `now` is the wall clock.  `toDateString`
values of two dates are equal exactly when the dates fall on the same
local calendar day, so the same-day and yesterday tests compare `day`
fields (`setDate(getDate() - 1)` moves one calendar day back). -/
def formatTimeAgo (loc : Locale) (dateString : Option JSDate) (now : JSDate) : String :=
  match dateString with
  | none => "just now"
  | some date =>
    let seconds : Int := (now.getTime - date.getTime).fdiv 1000
    if seconds < 60 then
      "just now"
    else if seconds < 3600 then
      let minutes := seconds.fdiv 60
      toString minutes ++ " minute" ++ (if minutes ≠ 1 then "s" else "") ++ " ago"
    else if seconds < 86400 then
      let hours := seconds.fdiv 3600
      toString hours ++ " hour" ++ (if hours ≠ 1 then "s" else "") ++ " ago"
    else if date.day = now.day then
      "Today at " ++ loc.timeHM date
    else if date.day = now.day - 1 then
      "Yesterday at " ++ loc.timeHM date
    else if seconds < 604800 then
      loc.weekdayTime date
    else
      loc.monthDayYear date

/-- The normalized `{success, data|error}` shape returned by the API
client. -/
structure ApiResponse (α : Type) where
  success : Bool
  data : Option α
  error : Option String
deriving DecidableEq

/-- Result shape of `tasksApi.getAllTasks`. -/
structure TasksResult where
  success : Bool
  tasks : Option (List Task)
  error : Option String
deriving DecidableEq

/-- Result shape of `tasksApi.createTask` / `updateTask` / `getTaskById`. -/
structure TaskResult where
  success : Bool
  task : Option Task
  error : Option String
deriving DecidableEq

/-- Result shape of `tasksApi.deleteTask`. -/
structure DeleteResult where
  success : Bool
  error : Option String
deriving DecidableEq

namespace tasksApi

/-- `tasksApi.getAllTasks`, as a function of the API client response. -/
def getAllTasks (response : ApiResponse (List Task)) : TasksResult :=
  if response.success then
    { success := true, tasks := response.data, error := none }
  else
    { success := false, tasks := none, error := response.error }

/-- `tasksApi.createTask`, as a function of the API client response. -/
def createTask (response : ApiResponse Task) : TaskResult :=
  if response.success && response.data.isSome then
    { success := true, task := response.data, error := none }
  else
    { success := false, task := none, error := response.error }

/-- `tasksApi.updateTask`, as a function of the API client response. -/
def updateTask (response : ApiResponse Task) : TaskResult :=
  if response.success && response.data.isSome then
    { success := true, task := response.data, error := none }
  else
    { success := false, task := none, error := response.error }

/-- `tasksApi.deleteTask`, as a function of the API client response. -/
def deleteTask (response : ApiResponse Unit) : DeleteResult :=
  if response.success then
    { success := true, error := none }
  else
    { success := false, error := response.error }

/-- `tasksApi.getTaskById`, as a function of the API client response. -/
def getTaskById (response : ApiResponse Task) : TaskResult :=
  if response.success && response.data.isSome then
    { success := true, task := response.data, error := none }
  else
    { success := false, task := none, error := response.error }

end tasksApi

/-- The new-task form state (`CreateTaskData` as held by the form: every
field a string-backed input, priority/recurring/category from their select
options). -/
structure CreateTaskData where
  title : String
  description : String
  priority : Priority
  recurring : Recurring
  category : Category
  due_date : String
deriving DecidableEq

/-- `title.charAt(0).toUpperCase() + title.slice(1)`. -/
def capitalizeFirst (s : String) : String :=
  match s.data with
  | [] => ""
  | c :: cs => String.mk (c.toUpper :: cs)

/-- JS `String.prototype.trim`: strip whitespace from both ends. -/
def jsTrim (s : String) : String :=
  String.mk ((((s.data.dropWhile Char.isWhitespace).reverse.dropWhile
    Char.isWhitespace).reverse))

/-- Outcome of the new-task `handleSubmit`: either the submission is
rejected client-side with an error message and no API call happens, or a
`createTask` API call is issued with the given payload. -/
inductive SubmitOutcome where
  | rejected (error : String)
  | apiCall (payload : CreateTaskData)
deriving DecidableEq

/-- `handleSubmit` from `tasks/new/page.tsx`, up to the API call: an empty
trimmed title is rejected with `Title is required` before any API call;
otherwise the payload with capitalized title is sent to
`tasksApi.createTask`.  The second component is the form state after the
handler runs (the handler never writes `formData`). -/
def handleSubmit (formData : CreateTaskData) : SubmitOutcome × CreateTaskData :=
  if jsTrim formData.title = "" then
    (SubmitOutcome.rejected "Title is required", formData)
  else
    (SubmitOutcome.apiCall { formData with title := capitalizeFirst formData.title },
      formData)

/-! ### Concrete fixtures used by counterexamples and witnesses -/

/-- A task with the given id, title, priority and due date, all other
fields neutral. -/
def mkTask (id : Int) (title : String) (prio : Priority) (due : Option JSDate) : Task :=
  { id := id, title := title, description := none, completed := false,
    priority := prio, due_date := due, recurring := Recurring.none,
    category := Category.other, created_at := ⟨0, 0⟩, user_id := 1 }

def now0 : JSDate := ⟨0, 0⟩

def taskA : Task := mkTask 1 "A" Priority.high none

def taskB : Task := mkTask 2 "B" Priority.low none

def taskHi : Task := mkTask 3 "High" Priority.high none

def taskMid : Task := mkTask 4 "Medium" Priority.medium none

def taskLo : Task := mkTask 5 "Low" Priority.low none

def taskWithDue : Task := mkTask 6 "W" Priority.medium (some ⟨5, 0⟩)

def taskNoDue : Task := mkTask 7 "N" Priority.medium none

def taskDueDay2 : Task := mkTask 8 "O" Priority.medium (some ⟨2, 0⟩)

def locEmpty : Locale := ⟨fun _ => "", fun _ => "", fun _ => ""⟩

/-! ### Order-theoretic facts about the sort comparator -/

lemma strCmp_antisymm (a b : String) : strCmp b a = -(strCmp a b) := by
  unfold strCmp
  rcases lt_trichotomy a b with h | h | h
  · simp [h, asymm h]
  · subst h; simp
  · simp [h, asymm h]

lemma strCmp_nonpos_iff (a b : String) : strCmp a b ≤ 0 ↔ a ≤ b := by
  unfold strCmp
  rcases lt_trichotomy a b with h | h | h
  · simp [h, asymm h, le_of_lt h]
  · subst h; simp
  · simp [h, asymm h, not_le.mpr h]

lemma cmpTask_antisymm (sb : SortKey) (a b : Task) :
    cmpTask sb b a = -(cmpTask sb a b) := by
  cases sb with
  | created_at => simp only [cmpTask]; omega
  | due_date =>
      rcases ha : a.due_date with _ | da <;> rcases hb : b.due_date with _ | db <;>
        simp only [cmpTask, ha, hb] <;> omega
  | priority => simp only [cmpTask]; omega
  | title => exact strCmp_antisymm a.title b.title

lemma cmpTask_trans (sb : SortKey) (a b c : Task) (h1 : cmpTask sb a b ≤ 0)
    (h2 : cmpTask sb b c ≤ 0) : cmpTask sb a c ≤ 0 := by
  cases sb with
  | created_at => simp only [cmpTask] at h1 h2 ⊢; omega
  | due_date =>
      rcases ha : a.due_date with _ | da <;> rcases hb : b.due_date with _ | db <;>
        rcases hc : c.due_date with _ | dc <;>
          simp only [cmpTask, ha, hb, hc] at h1 h2 ⊢ <;> omega
  | priority => simp only [cmpTask] at h1 h2 ⊢; omega
  | title =>
      simp only [cmpTask] at h1 h2 ⊢
      rw [strCmp_nonpos_iff] at h1 h2 ⊢
      exact le_trans h1 h2

lemma taskLe_total (sb : SortKey) (so : SortOrder) (a b : Task) :
    taskLe sb so a b ∨ taskLe sb so b a := by
  have h := cmpTask_antisymm sb a b
  cases so <;> simp only [taskLe, comparator] <;> omega

lemma taskLe_trans (sb : SortKey) (so : SortOrder) (a b c : Task)
    (h1 : taskLe sb so a b) (h2 : taskLe sb so b c) : taskLe sb so a c := by
  cases so <;> simp only [taskLe, comparator] at h1 h2 ⊢
  · exact cmpTask_trans sb a b c h1 h2
  · have hba := cmpTask_antisymm sb a b
    have hcb := cmpTask_antisymm sb b c
    have hca := cmpTask_antisymm sb a c
    have hres := cmpTask_trans sb c b a (by omega) (by omega)
    omega

lemma isTotal_taskLe (sb : SortKey) (so : SortOrder) : IsTotal Task (taskLe sb so) :=
  ⟨taskLe_total sb so⟩

lemma isTrans_taskLe (sb : SortKey) (so : SortOrder) : IsTrans Task (taskLe sb so) :=
  ⟨taskLe_trans sb so⟩

/-! ### Structure of the pipeline -/

lemma applyFiltersAndSorting_def (s : String) (f : StatusFilter) (sb : SortKey)
    (so : SortOrder) (now : JSDate) (ts : List Task) :
    applyFiltersAndSorting s f sb so now ts =
      ((if s ≠ "" then ts.filter (searchPred s.toLower) else ts).filter
        (statusPred f (getToday now))).insertionSort (taskLe sb so) := rfl

lemma applyFS_sorted (s : String) (f : StatusFilter) (sb : SortKey)
    (so : SortOrder) (now : JSDate) (ts : List Task) :
    List.Sorted (taskLe sb so) (applyFiltersAndSorting s f sb so now ts) := by
  rw [applyFiltersAndSorting_def]
  haveI := isTotal_taskLe sb so
  haveI := isTrans_taskLe sb so
  exact List.sorted_insertionSort _ _

lemma mem_applyFS {s : String} {f : StatusFilter} {sb : SortKey} {so : SortOrder}
    {now : JSDate} {ts : List Task} {t : Task} :
    t ∈ applyFiltersAndSorting s f sb so now ts ↔
      (s ≠ "" → searchPred s.toLower t = true) ∧
        statusPred f (getToday now) t = true ∧ t ∈ ts := by
  rw [applyFiltersAndSorting_def, List.mem_insertionSort, List.mem_filter]
  by_cases h : s = ""
  · subst h
    simp
    tauto
  · simp [h, List.mem_filter]
    tauto

lemma taskLe_due_asc_isSome {a b : Task}
    (h : taskLe SortKey.due_date SortOrder.asc a b) :
    b.due_date.isSome ≤ a.due_date.isSome := by
  simp only [taskLe, comparator, cmpTask] at h
  rcases ha : a.due_date with _ | da <;> rcases hb : b.due_date with _ | db <;>
    rw [ha, hb] at h <;> simp_all

lemma taskLe_due_desc_isSome {a b : Task}
    (h : taskLe SortKey.due_date SortOrder.desc a b) :
    a.due_date.isSome ≤ b.due_date.isSome := by
  simp only [taskLe, comparator, cmpTask] at h
  rcases ha : a.due_date with _ | da <;> rcases hb : b.due_date with _ | db <;>
    rw [ha, hb] at h <;> simp_all

lemma mul_day_lt_iff (x y : Int) : x * 86400000 < y * 86400000 ↔ x < y := by omega

lemma mul_day_le_iff (x y : Int) : x * 86400000 ≤ y * 86400000 ↔ x ≤ y := by omega

/-! ### Claims -/

/-- C1 counterexample: sorting the claim's example collection
[B (low), A (high)] by priority with direction `desc` yields the titles
["B", "A"], not ["A", "B"] as the claim states. -/
theorem c1_priority_desc_example_cex :
    (applyFiltersAndSorting "" .all .priority .desc now0 [taskB, taskA]).map
      Task.title ≠ ["A", "B"] := by decide

/-- C1 (amended): the priority rank table is high > medium > low and the
direction flag only reverses the comparator sign; however the comparator
already places higher priority first, so the claim's example sorted with
direction `asc` yields ["A", "B"] and with `desc` yields ["B", "A"]. -/
theorem c1_priority_sort_amended :
    ((applyFiltersAndSorting "" .all .priority .asc now0 [taskB, taskA]).map
        Task.title = ["A", "B"]) ∧
      ((applyFiltersAndSorting "" .all .priority .desc now0 [taskB, taskA]).map
        Task.title = ["B", "A"]) ∧
      ((applyFiltersAndSorting "" .all .priority .asc now0
          [taskLo, taskMid, taskHi]).map Task.title = ["High", "Medium", "Low"]) ∧
      (∀ a b : Task,
        comparator .priority .desc a b = -(comparator .priority .asc a b)) :=
  ⟨by decide, by decide, by decide, fun _ _ => rfl⟩

/-- C2 counterexample: sorting by due date with direction `desc` places the
task without a due date before the task with one, so missing due dates do
not sort last in every direction. -/
theorem c2_missing_due_last_cex :
    ¬ (((applyFiltersAndSorting "" .all .due_date .desc now0
        [taskWithDue, taskNoDue]).map
          (fun t => t.due_date.isSome)).Pairwise (fun x y => y ≤ x)) := by decide

/-- C2 (amended): sorting by due date with direction `asc` puts every task
without a due date after every task with one; with direction `desc` the
comparator sign flips, so tasks without a due date come before all tasks
with one. -/
theorem c2_missing_due_position (s : String) (f : StatusFilter) (now : JSDate)
    (ts : List Task) :
    ((applyFiltersAndSorting s f .due_date .asc now ts).map
        (fun t => t.due_date.isSome)).Pairwise (fun x y => y ≤ x) ∧
      ((applyFiltersAndSorting s f .due_date .desc now ts).map
        (fun t => t.due_date.isSome)).Pairwise (fun x y => x ≤ y) := by
  constructor
  · rw [List.pairwise_map]
    exact List.Pairwise.imp (fun hab => taskLe_due_asc_isSome hab)
      (applyFS_sorted s f .due_date .asc now ts)
  · rw [List.pairwise_map]
    exact List.Pairwise.imp (fun hab => taskLe_due_desc_isSome hab)
      (applyFS_sorted s f .due_date .desc now ts)

/-- C4: with a neutral search term, the `overdue` status filter keeps
exactly the incomplete tasks of the collection whose due day is strictly
before the start of today, the `upcoming` filter keeps exactly the
incomplete tasks whose due day is on or after the start of today, and a
task without a due date is kept by neither. -/
theorem c4_overdue_upcoming_pred (now : JSDate) (sb : SortKey) (so : SortOrder)
    (ts : List Task) (t : Task) :
    (t ∈ applyFiltersAndSorting "" .overdue sb so now ts ↔
        t ∈ ts ∧ t.completed = false ∧
          ∃ d, t.due_date = some d ∧ d.day < now.day) ∧
      (t ∈ applyFiltersAndSorting "" .upcoming sb so now ts ↔
        t ∈ ts ∧ t.completed = false ∧
          ∃ d, t.due_date = some d ∧ now.day ≤ d.day) ∧
      (t.due_date = none →
        t ∉ applyFiltersAndSorting "" .overdue sb so now ts ∧
          t ∉ applyFiltersAndSorting "" .upcoming sb so now ts) := by
  have hmem0 : ∀ f : StatusFilter, t ∈ applyFiltersAndSorting "" f sb so now ts ↔
      statusPred f (getToday now) t = true ∧ t ∈ ts := by
    intro f
    rw [mem_applyFS]
    simp
  have hover : statusPred .overdue (getToday now) t = true ↔
      t.completed = false ∧ ∃ d, t.due_date = some d ∧ d.day < now.day := by
    rcases hd : t.due_date with _ | d <;>
      simp [statusPred, hd, getToday, JSDate.atMidnight, JSDate.getTime,
        mul_day_lt_iff]
  have hup : statusPred .upcoming (getToday now) t = true ↔
      t.completed = false ∧ ∃ d, t.due_date = some d ∧ now.day ≤ d.day := by
    rcases hd : t.due_date with _ | d <;>
      simp [statusPred, hd, getToday, JSDate.atMidnight, JSDate.getTime,
        mul_day_le_iff]
  refine ⟨?_, ?_, ?_⟩
  · rw [hmem0, hover]
    tauto
  · rw [hmem0, hup]
    tauto
  · intro hnone
    constructor <;> intro hcon
    · rcases ((hmem0 _).mp hcon) with ⟨hp, -⟩
      rcases hover.mp hp with ⟨-, d, hd, -⟩
      rw [hnone] at hd
      exact Option.noConfusion hd
    · rcases ((hmem0 _).mp hcon) with ⟨hp, -⟩
      rcases hup.mp hp with ⟨-, d, hd, -⟩
      rw [hnone] at hd
      exact Option.noConfusion hd

/-- C4 witness: a task with no due date is dropped by both `overdue` and
`upcoming` at a concrete clock value. -/
theorem c4_overdue_upcoming_pred_witness :
    taskNoDue ∉ applyFiltersAndSorting "" .overdue .created_at .desc now0
        [taskNoDue] ∧
      taskNoDue ∉ applyFiltersAndSorting "" .upcoming .created_at .desc now0
        [taskNoDue] :=
  (c4_overdue_upcoming_pred now0 .created_at .desc [taskNoDue] taskNoDue).2.2 rfl

/-- C5 counterexample: with the `overdue` status filter, two evaluations
with identical search term, status filter, sort key, direction and task
collection but different current days produce different display lists, so
the output is not a function of the five claimed inputs alone. -/
theorem c5_pure_function_cex :
    applyFiltersAndSorting "" .overdue .created_at .desc ⟨0, 0⟩ [taskDueDay2] ≠
      applyFiltersAndSorting "" .overdue .created_at .desc ⟨5, 0⟩ [taskDueDay2] := by
  decide

/-- C5 (amended): the display list is a pure function of the search term,
status filter, sort key, direction and task collection plus the current
day, and the current day matters only through the `overdue` and `upcoming`
status filters: for every other status filter the output is independent of
the clock. -/
theorem c5_inputs_determine_output (s : String) (f : StatusFilter) (sb : SortKey)
    (so : SortOrder) (now1 now2 : JSDate) (ts : List Task)
    (h1 : f ≠ .overdue) (h2 : f ≠ .upcoming) :
    applyFiltersAndSorting s f sb so now1 ts =
      applyFiltersAndSorting s f sb so now2 ts := by
  rw [applyFiltersAndSorting_def, applyFiltersAndSorting_def]
  have hsp : statusPred f (getToday now1) = statusPred f (getToday now2) := by
    funext t
    cases f with
    | overdue => exact absurd rfl h1
    | upcoming => exact absurd rfl h2
    | all => rfl
    | active => rfl
    | completed => rfl
  rw [hsp]

/-- C5 witness: with the `all` filter, two very different clock values give
the same display list. -/
theorem c5_inputs_determine_output_witness :
    applyFiltersAndSorting "" .all .created_at .desc ⟨0, 0⟩ [taskA] =
      applyFiltersAndSorting "" .all .created_at .desc ⟨9, 5⟩ [taskA] :=
  c5_inputs_determine_output "" .all .created_at .desc ⟨0, 0⟩ ⟨9, 5⟩ [taskA]
    (by decide) (by decide)

/-- C6: the filter/sort pipeline is idempotent: applying
`applyFiltersAndSorting` to its own output with the same search term,
status filter, sort key, direction and reference time yields the same
sequence as applying it once. -/
theorem c6_filter_sort_idempotent (s : String) (f : StatusFilter) (sb : SortKey)
    (so : SortOrder) (now : JSDate) (ts : List Task) :
    applyFiltersAndSorting s f sb so now (applyFiltersAndSorting s f sb so now ts) =
      applyFiltersAndSorting s f sb so now ts := by
  have hmem : ∀ x ∈ applyFiltersAndSorting s f sb so now ts,
      (s ≠ "" → searchPred s.toLower x = true) ∧
        statusPred f (getToday now) x = true :=
    fun x hx => ⟨(mem_applyFS.mp hx).1, (mem_applyFS.mp hx).2.1⟩
  have h1 : (if s ≠ "" then
        (applyFiltersAndSorting s f sb so now ts).filter (searchPred s.toLower)
      else applyFiltersAndSorting s f sb so now ts) =
      applyFiltersAndSorting s f sb so now ts := by
    by_cases h : s = ""
    · simp [h]
    · rw [if_pos h]
      exact List.filter_eq_self.mpr fun x hx => (hmem x hx).1 h
  have h2 : (applyFiltersAndSorting s f sb so now ts).filter
      (statusPred f (getToday now)) = applyFiltersAndSorting s f sb so now ts :=
    List.filter_eq_self.mpr fun x hx => (hmem x hx).2
  rw [applyFiltersAndSorting_def, h1, h2]
  exact (applyFS_sorted s f sb so now ts).insertionSort_eq

/-- C8: the pipeline produces a new ordered sequence without mutating the
source collection: running the body with the array state made explicit
returns the source unchanged, and the display component is exactly
`applyFiltersAndSorting` of the source. -/
theorem c8_no_mutation (s : String) (f : StatusFilter) (sb : SortKey)
    (so : SortOrder) (now : JSDate) (ts : List Task) :
    (applyFiltersAndSortingRun s f sb so now ts).2 = ts ∧
      (applyFiltersAndSortingRun s f sb so now ts).1 =
        applyFiltersAndSorting s f sb so now ts := by
  constructor
  · rfl
  · simp only [applyFiltersAndSortingRun, applyFiltersAndSorting, List.map_id]

/-- C3: a merge step of the activity feed prepends the new event, never
leaves more than 10 entries, every surviving older entry has an id
different from the new one, and — provided the previous feed had no
duplicate ids — the merged feed has no duplicate ids. -/
theorem c3_activity_merge_invariant (a : ActivityItem) (prev : List ActivityItem) :
    (handleTaskActivity a prev).length ≤ 10 ∧
      (handleTaskActivity a prev).head? = some a ∧
      (∀ x ∈ (handleTaskActivity a prev).tail, x.id ≠ a.id) ∧
      ((prev.map ActivityItem.id).Nodup →
        ((handleTaskActivity a prev).map ActivityItem.id).Nodup) := by
  refine ⟨?_, ?_, ?_, ?_⟩
  · exact List.length_take_le 10 _
  · rfl
  · intro x hx
    have hx9 : x ∈ (prev.filter (fun y => y.id != a.id)).take 9 := hx
    have hxf : x ∈ prev.filter (fun y => y.id != a.id) :=
      (List.take_sublist _ _).subset hx9
    have hne := (List.mem_filter.mp hxf).2
    simpa [bne_iff_ne] using hne
  · intro h
    have hfl : ((prev.filter (fun y => y.id != a.id)).map ActivityItem.id).Nodup :=
      h.sublist (List.Sublist.map _ (List.filter_sublist _))
    have hcons : ((a :: prev.filter (fun y => y.id != a.id)).map
        ActivityItem.id).Nodup := by
      rw [List.map_cons, List.nodup_cons]
      refine ⟨?_, hfl⟩
      intro hmem
      rcases List.mem_map.mp hmem with ⟨x, hxmem, hxid⟩
      have hne := (List.mem_filter.mp hxmem).2
      rw [bne_iff_ne] at hne
      exact hne hxid
    have htake : (handleTaskActivity a prev).map ActivityItem.id =
        ((a :: prev.filter (fun y => y.id != a.id)).map ActivityItem.id).take 10 := by
      simp only [handleTaskActivity, List.map_take]
    rw [htake]
    exact hcons.sublist (List.take_sublist _ _)

/-- C3 witness: merging a concrete event into a feed that already holds an
entry with the same id keeps the bound, the prepend position and id
uniqueness. -/
theorem c3_activity_merge_invariant_witness :
    (handleTaskActivity ⟨"act-9", "task_created", "T", none⟩
        [⟨"act-1", "task_updated", "U", none⟩,
          ⟨"act-9", "task_deleted", "D", none⟩]).length ≤ 10 ∧
      (handleTaskActivity ⟨"act-9", "task_created", "T", none⟩
        [⟨"act-1", "task_updated", "U", none⟩,
          ⟨"act-9", "task_deleted", "D", none⟩]).head? =
        some ⟨"act-9", "task_created", "T", none⟩ ∧
      ((handleTaskActivity ⟨"act-9", "task_created", "T", none⟩
        [⟨"act-1", "task_updated", "U", none⟩,
          ⟨"act-9", "task_deleted", "D", none⟩]).map ActivityItem.id).Nodup := by
  have h := c3_activity_merge_invariant ⟨"act-9", "task_created", "T", none⟩
    [⟨"act-1", "task_updated", "U", none⟩, ⟨"act-9", "task_deleted", "D", none⟩]
  exact ⟨h.1, h.2.1, h.2.2.2 (by decide)⟩

/-- C7: `formatTimeAgo` returns "just now" for an absent timestamp and for
deltas under 60 seconds; for deltas of at least one minute but under one
hour it returns "<n> minute(s) ago" with correct singular/plural, and for
deltas of at least one hour but under one day it returns
"<n> hour(s) ago". -/
theorem c7_formatTimeAgo_branches (loc : Locale) (now : JSDate) :
    formatTimeAgo loc none now = "just now" ∧
      ∀ date : JSDate,
        ((now.getTime - date.getTime).fdiv 1000 < 60 →
          formatTimeAgo loc (some date) now = "just now") ∧
        (60 ≤ (now.getTime - date.getTime).fdiv 1000 →
          (now.getTime - date.getTime).fdiv 1000 < 3600 →
          ((now.getTime - date.getTime).fdiv 1000).fdiv 60 = 1 →
          formatTimeAgo loc (some date) now = "1 minute ago") ∧
        (60 ≤ (now.getTime - date.getTime).fdiv 1000 →
          (now.getTime - date.getTime).fdiv 1000 < 3600 →
          ((now.getTime - date.getTime).fdiv 1000).fdiv 60 ≠ 1 →
          formatTimeAgo loc (some date) now =
            toString (((now.getTime - date.getTime).fdiv 1000).fdiv 60) ++
              " minutes ago") ∧
        (3600 ≤ (now.getTime - date.getTime).fdiv 1000 →
          (now.getTime - date.getTime).fdiv 1000 < 86400 →
          ((now.getTime - date.getTime).fdiv 1000).fdiv 3600 = 1 →
          formatTimeAgo loc (some date) now = "1 hour ago") ∧
        (3600 ≤ (now.getTime - date.getTime).fdiv 1000 →
          (now.getTime - date.getTime).fdiv 1000 < 86400 →
          ((now.getTime - date.getTime).fdiv 1000).fdiv 3600 ≠ 1 →
          formatTimeAgo loc (some date) now =
            toString (((now.getTime - date.getTime).fdiv 1000).fdiv 3600) ++
              " hours ago") := by
  constructor
  · rfl
  · intro date
    refine ⟨?_, ?_, ?_, ?_, ?_⟩
    · intro h
      simp only [formatTimeAgo]
      rw [if_pos h]
    · intro h60 h36 hone
      simp only [formatTimeAgo]
      rw [if_neg (by omega), if_pos h36, hone]
      decide
    · intro h60 h36 hne
      simp only [formatTimeAgo]
      rw [if_neg (by omega), if_pos h36, if_pos hne, String.append_assoc,
        String.append_assoc]
      exact congrArg (fun z =>
        toString (((now.getTime - date.getTime).fdiv 1000).fdiv 60) ++ z)
        (by decide)
    · intro h36 h86 hone
      simp only [formatTimeAgo]
      rw [if_neg (by omega), if_neg (by omega), if_pos h86, hone]
      decide
    · intro h36 h86 hne
      simp only [formatTimeAgo]
      rw [if_neg (by omega), if_neg (by omega), if_pos h86, if_pos hne,
        String.append_assoc, String.append_assoc]
      exact congrArg (fun z =>
        toString (((now.getTime - date.getTime).fdiv 1000).fdiv 3600) ++ z)
        (by decide)

/-- C7 witness: concrete deltas hit each of the claimed branches. -/
theorem c7_formatTimeAgo_branches_witness :
    formatTimeAgo locEmpty none now0 = "just now" ∧
      formatTimeAgo locEmpty (some ⟨0, 0⟩) ⟨0, 30000⟩ = "just now" ∧
      formatTimeAgo locEmpty (some ⟨0, 0⟩) ⟨0, 90000⟩ = "1 minute ago" ∧
      formatTimeAgo locEmpty (some ⟨0, 0⟩) ⟨0, 180000⟩ = "3 minutes ago" ∧
      formatTimeAgo locEmpty (some ⟨0, 0⟩) ⟨0, 3700000⟩ = "1 hour ago" ∧
      formatTimeAgo locEmpty (some ⟨0, 0⟩) ⟨0, 7300000⟩ = "2 hours ago" := by
  refine ⟨(c7_formatTimeAgo_branches locEmpty now0).1, ?_, ?_, ?_, ?_, ?_⟩
  · exact ((c7_formatTimeAgo_branches locEmpty ⟨0, 30000⟩).2 ⟨0, 0⟩).1 (by decide)
  · exact ((c7_formatTimeAgo_branches locEmpty ⟨0, 90000⟩).2 ⟨0, 0⟩).2.1
      (by decide) (by decide) (by decide)
  · exact (((c7_formatTimeAgo_branches locEmpty ⟨0, 180000⟩).2 ⟨0, 0⟩).2.2.1
      (by decide) (by decide) (by decide)).trans (by decide)
  · exact ((c7_formatTimeAgo_branches locEmpty ⟨0, 3700000⟩).2 ⟨0, 0⟩).2.2.2.1
      (by decide) (by decide) (by decide)
  · exact (((c7_formatTimeAgo_branches locEmpty ⟨0, 7300000⟩).2 ⟨0, 0⟩).2.2.2.2
      (by decide) (by decide) (by decide)).trans (by decide)

/-- C9: every `tasksApi` operation maps a failed client response to a
result with `success = false` carrying the client's error string and no
payload, and a result of any operation carries a task/tasks payload only
when `success = true`. -/
theorem c9_tasksApi_error_handling :
    (∀ (d : Option (List Task)) (e : Option String),
        tasksApi.getAllTasks ⟨false, d, e⟩ = ⟨false, none, e⟩) ∧
      (∀ (d : Option Task) (e : Option String),
        tasksApi.createTask ⟨false, d, e⟩ = ⟨false, none, e⟩ ∧
          tasksApi.updateTask ⟨false, d, e⟩ = ⟨false, none, e⟩ ∧
          tasksApi.getTaskById ⟨false, d, e⟩ = ⟨false, none, e⟩) ∧
      (∀ (d : Option Unit) (e : Option String),
        tasksApi.deleteTask ⟨false, d, e⟩ = ⟨false, e⟩) ∧
      (∀ r : ApiResponse (List Task),
        (tasksApi.getAllTasks r).success = true ∨
          (tasksApi.getAllTasks r).tasks = none) ∧
      (∀ r : ApiResponse Task,
        ((tasksApi.createTask r).success = true ∨
            (tasksApi.createTask r).task = none) ∧
          ((tasksApi.updateTask r).success = true ∨
            (tasksApi.updateTask r).task = none) ∧
          ((tasksApi.getTaskById r).success = true ∨
            (tasksApi.getTaskById r).task = none)) := by
  refine ⟨fun d e => rfl, fun d e => ⟨rfl, rfl, rfl⟩, fun d e => rfl, ?_, ?_⟩
  · intro r
    by_cases h : r.success = true
    · left
      simp [tasksApi.getAllTasks, h]
    · right
      simp [tasksApi.getAllTasks, h]
  · intro r
    by_cases h : (r.success && r.data.isSome) = true
    · exact ⟨Or.inl (by simp [tasksApi.createTask, h]),
        Or.inl (by simp [tasksApi.updateTask, h]),
        Or.inl (by simp [tasksApi.getTaskById, h])⟩
    · exact ⟨Or.inr (by simp [tasksApi.createTask, h]),
        Or.inr (by simp [tasksApi.updateTask, h]),
        Or.inr (by simp [tasksApi.getTaskById, h])⟩

/-- C10: submitting the new-task form with a title that trims to the empty
string (empty or whitespace-only) is rejected client-side with the error
"Title is required": the outcome is a rejection, not an API call, and the
form state is returned unchanged. -/
theorem c10_title_required (fd : CreateTaskData) (h : jsTrim fd.title = "") :
    handleSubmit fd = (SubmitOutcome.rejected "Title is required", fd) := by
  simp [handleSubmit, h]

/-- C10 witness: a whitespace-only title is rejected with the exact error
string and the form state is unchanged. -/
theorem c10_title_required_witness :
    handleSubmit ⟨"   ", "", Priority.medium, Recurring.none, Category.other, ""⟩ =
      (SubmitOutcome.rejected "Title is required",
        ⟨"   ", "", Priority.medium, Recurring.none, Category.other, ""⟩) :=
  c10_title_required _ (by decide)

end TodoApp
